import Mathlib

/-!
Shallow embedding of the reminder scheduler of the ai-task-manager backend
(`backend/app/services/scheduler.py`) and of the mail adapter
(`backend/app/services/email_service.py`), together with theorems checking
the specification's claims about them.

External collaborators (the Supabase store, `datetime.fromisoformat`, the
profile/email lookup, SMTP) are modelled as oracle functions carried in an
environment record; effects (mail-adapter calls, email lookups, store
writes) are recorded in explicit traces so that absence of an effect is a
provable statement.  Time instants are rationals measured in hours on the
single naive timeline the code compares on; Python exceptions are the
`Except.error` constructor, and every `try/except` of the source is an
explicit `match` on that constructor.
-/

namespace TaskManager

/-- A task record as fetched from the `tasks` table.  Fields are the ones the
scheduler reads: `id`, `auth_users_id`, `title`, `description`, `status`,
`priority`, `due_date` (optional ISO string). -/
structure Task where
  id : String
  auth_users_id : String
  title : String
  description : String
  status : String
  priority : String
  due_date : Option String
deriving DecidableEq, Repr

/-- The three reminder windows of `check_task_reminders`. -/
inductive Window
  | preDue
  | dueNow
  | overdue
deriving DecidableEq, Repr

/-- The dedup key built for a `(task_id, window)` pair:
`f"{task_id}_1h"`, `f"{task_id}_due"`, `f"{task_id}_overdue"`. -/
def keyFor (task_id : String) : Window → String
  | .preDue => task_id ++ "_1h"
  | .dueNow => task_id ++ "_due"
  | .overdue => task_id ++ "_overdue"

/-- Python falsiness of an optional string (`not task.get('due_date')`):
missing or empty. -/
def blank : Option String → Bool
  | none => true
  | some s => s = ""

/-- Python `set.add` on the dedup set, kept as a duplicate-free list. -/
def insertKey (k : String) (s : List String) : List String :=
  if k ∈ s then s else k :: s

/-- Oracles for the scheduler's external collaborators.
`parseDue` is `datetime.fromisoformat` (after the `Z` replacement and
timezone stripping), returning the due instant in hours on the shared naive
timeline, or `none` when the string is malformed and the call raises.
`getUserEmail` is `_get_user_email` followed by the `.get('email')` access:
it never raises (it catches internally and returns `{}`), so it is a total
function to `Option String`.  `sendOk` is the mail adapter's boolean result
(the adapter never raises, see `send_task_reminder` below). -/
structure Env where
  parseDue : String → Option ℚ
  getUserEmail : String → Option String
  sendOk : String → Task → Bool

/-- One call to the mail adapter during a pass: which task and window it was
for, the recipient, the exact task dict handed to the adapter, and the
boolean the adapter returned. -/
structure SendRec where
  taskId : String
  window : Window
  recipient : String
  emailTask : Task
  success : Bool
deriving DecidableEq, Repr

/-- Scheduler state threaded through the per-task loop: the dedup set
`sent_reminders`, the per-pass `reminder_sent_count`, and the traces of
email lookups and mail-adapter calls. -/
structure LoopState where
  sent : List String
  cnt : Nat
  lookups : List String
  attempts : List SendRec
deriving DecidableEq, Repr

/-- The shared tail of the three send branches: call the mail adapter, and
on success add the dedup key and bump the counter; on failure change
nothing besides recording the attempt. -/
def sendAttempt (env : Env) (acc : LoopState) (task_id : String) (w : Window)
    (recipient : String) (emailTask : Task) : LoopState :=
  let success := env.sendOk recipient emailTask
  let acc1 := { acc with attempts := acc.attempts ++ [⟨task_id, w, recipient, emailTask, success⟩] }
  if success then
    { acc1 with sent := insertKey (keyFor task_id w) acc1.sent, cnt := acc1.cnt + 1 }
  else acc1

/-- The part of the per-task body after the due date has parsed: resolve the
owner's email (always attempted at this point, recorded in the lookup
trace), then the `if/elif/elif` chain over the three windows, each guard
also testing the dedup key.  `hours_until_due` is `(due_date - now)` in
hours. -/
def processParsed (env : Env) (acc : LoopState) (task : Task)
    (hours_until_due : ℚ) : LoopState :=
  let task_id := task.id
  let user_id := task.auth_users_id
  let acc := { acc with lookups := acc.lookups ++ [user_id] }
  let emailOpt := env.getUserEmail user_id
  if blank emailOpt then acc
  else
    let user_email := emailOpt.getD ""
    if (0.9 ≤ hours_until_due ∧ hours_until_due ≤ 1.1) ∧
        keyFor task_id .preDue ∉ acc.sent then
      sendAttempt env acc task_id .preDue user_email task
    else if ((-0.08 : ℚ) ≤ hours_until_due ∧ hours_until_due ≤ 0.08) ∧
        keyFor task_id .dueNow ∉ acc.sent then
      sendAttempt env acc task_id .dueNow user_email task
    else if ((-1.1 : ℚ) ≤ hours_until_due ∧ hours_until_due ≤ (-0.9 : ℚ)) ∧
        keyFor task_id .overdue ∉ acc.sent then
      let overdue_task := { task with title := "OVERDUE: " ++ task.title }
      sendAttempt env acc task_id .overdue user_email overdue_task
    else acc

/-- The inner `try` block of the per-task loop.  The only statement in it
that can raise in the embedding is the due-date parse (`ValueError` from
`fromisoformat` on a malformed string). -/
def processTaskBody (env : Env) (now : ℚ) (acc : LoopState) (task : Task) :
    Except String LoopState :=
  let due_date_str := task.due_date.getD ""
  match env.parseDue due_date_str with
  | none => .error ("ValueError: Invalid isoformat string: " ++ due_date_str)
  | some due_date => .ok (processParsed env acc task (due_date - now))

/-- One iteration of the per-task loop: the skip test for tasks with no due
date or status `completed`, then the `try` body with its `except` that logs
and continues (state unchanged). -/
def processTask (env : Env) (now : ℚ) (acc : LoopState) (task : Task) : LoopState :=
  if blank task.due_date ∨ task.status = "completed" then acc
  else
    match processTaskBody env now acc task with
    | .ok acc1 => acc1
    | .error _ => acc

/-- The per-task loop over the fetched task list, in store-returned order. -/
def runLoop (env : Env) (now : ℚ) (acc : LoopState) (tasks : List Task) : LoopState :=
  tasks.foldl (processTask env now) acc

/-- `TaskScheduler._cleanup_old_reminders`: clear the dedup set entirely
when it holds more than 1000 keys, otherwise leave it alone. -/
def cleanup_old_reminders (sent_reminders : List String) : List String :=
  if 1000 < sent_reminders.length then [] else sent_reminders

/-- The observable outcome of one pass: the dedup set afterwards, the sent
counter, and the traces (email lookups, mail-adapter calls, store writes —
the scheduler's code path contains no store write, so the last trace is
built empty). -/
structure PassResult where
  sentReminders : List String
  reminderSentCount : Nat
  emailLookups : List String
  attempts : List SendRec
  storeWrites : List Task
deriving DecidableEq, Repr

/-- `TaskScheduler.check_task_reminders`, one pass.  `fetched` is the result
of the store query: `.error` when the fetch raised (caught by the outer
`except`, leaving all state unchanged), `.ok []` the empty result that
returns early before the loop and before the cleanup.  Otherwise the loop
runs from the current dedup set and the cleanup runs afterwards. -/
def check_task_reminders (env : Env) (now : ℚ)
    (fetched : Except String (List Task)) (sent0 : List String) : PassResult :=
  match fetched with
  | .error _ => ⟨sent0, 0, [], [], []⟩
  | .ok all_tasks =>
    if all_tasks.isEmpty then ⟨sent0, 0, [], [], []⟩
    else
      let final := runLoop env now ⟨sent0, 0, [], []⟩ all_tasks
      ⟨cleanup_old_reminders final.sent, final.cnt, final.lookups, final.attempts, []⟩

/-- The window classification implicit in the `if/elif/elif` chain, as a
function of `hours_until_due` alone (the three ranges of
`scheduler.py`, inclusive bounds). -/
def windowOf (h : ℚ) : Option Window :=
  if 0.9 ≤ h ∧ h ≤ 1.1 then some .preDue
  else if (-0.08 : ℚ) ≤ h ∧ h ≤ 0.08 then some .dueNow
  else if (-1.1 : ℚ) ≤ h ∧ h ≤ (-0.9 : ℚ) then some .overdue
  else none

/-- The task dict actually handed to the mail adapter for a window: the
fetched task itself, except for the overdue window, where it is a copy with
the title prefixed. -/
def emailTaskFor (task : Task) : Window → Task
  | .overdue => { task with title := "OVERDUE: " ++ task.title }
  | _ => task

/-- Number of mail-adapter calls recorded for a given `(task, window)` pair. -/
def pairAttempts (l : List SendRec) (tid : String) (w : Window) : Nat :=
  l.countP fun a => decide (a.taskId = tid ∧ a.window = w)

/-- Number of successful mail-adapter calls recorded for a given pair. -/
def pairSuccesses (l : List SendRec) (tid : String) (w : Window) : Nat :=
  l.countP fun a => decide (a.taskId = tid ∧ a.window = w ∧ a.success = true)

/-- Credentials of `EmailService` (`SMTP_EMAIL` / `SMTP_PASSWORD`, possibly
unset or empty). -/
structure MailConfig where
  sender_email : Option String
  sender_password : Option String
deriving DecidableEq, Repr

/-- Python `task.get(k)` on the dict handed to the mail adapter. -/
def dictGet (task : List (String × String)) (k : String) : Option String :=
  (task.find? fun p => p.1 == k).map fun p => p.2

/-- Python `task[k]`: raises `KeyError` when the key is absent. -/
def dictIndex (task : List (String × String)) (k : String) : Except String String :=
  match dictGet task k with
  | some v => .ok v
  | none => .error ("KeyError: " ++ k)

/-- The `try` body of `EmailService.send_task_reminder`: build the message
(subject from `task['title']`, the due string from parsing `task['due_date']`
when present and non-empty, the HTML from `task['priority']` and the rest),
then the SMTP conversation, whose outcome the oracle `smtp_ok` gives.  Each
step that can raise in Python is an `Except.error` here.
`dueCheck` is the due-date conditional expression of the body: parse when
the key is present and truthy (`ValueError` on a malformed string). -/
def dueCheck (parseIso : String → Option ℚ) : Option String → Except String Unit
  | some s =>
    if s = "" then .ok ()
    else
      match parseIso s with
      | some _ => .ok ()
      | none => .error ("ValueError: Invalid isoformat string: " ++ s)
  | none => .ok ()

def send_body (parseIso : String → Option ℚ) (smtp_ok : Bool)
    (task : List (String × String)) : Except String Bool :=
  match dictIndex task "title" with
  | .error e => .error e
  | .ok _title =>
    match dueCheck parseIso (dictGet task "due_date") with
    | .error e => .error e
    | .ok _ =>
      match dictIndex task "priority" with
      | .error e => .error e
      | .ok _priority =>
        if smtp_ok then .ok true else .error "SMTPException"

/-- `EmailService.send_task_reminder`.  The result is an `Except` so that
"never raises to the caller" is a provable statement: the credential check
comes before the `try` and simply returns `False`, and the
`except Exception` turns any error of the body into `False`. -/
def send_task_reminder (cfg : MailConfig) (parseIso : String → Option ℚ)
    (smtp_ok : Bool) (recipient_email : String)
    (task : List (String × String)) : Except String Bool :=
  if blank cfg.sender_email ∨ blank cfg.sender_password then .ok false
  else
    match send_body parseIso smtp_ok task with
    | .ok b => .ok b
    | .error _ => .ok false

/-! ### Concrete sample data used by witnesses and counterexamples -/

/-- A pending task with a well-formed due date. -/
def sampleTask : Task :=
  ⟨"t1", "u1", "Write report", "quarterly numbers", "todo", "medium",
    some "2025-06-01T10:00:00"⟩

/-- A completed task (same due date). -/
def sampleDone : Task :=
  ⟨"t2", "u1", "Old report", "", "completed", "low",
    some "2025-06-01T10:00:00"⟩

/-- Oracles: every due date parses to instant 10 (ten hours after `now = 0`,
inside no window), the owner's email resolves, sends succeed. -/
def sampleEnvFar : Env :=
  ⟨fun _ => some 10, fun _ => some "user@example.com", fun _ _ => true⟩

/-- Oracles: due instant 1 (exactly one hour after `now = 0`, pre-due
window), email resolves, sends succeed. -/
def sampleEnvPre : Env :=
  ⟨fun _ => some 1, fun _ => some "user@example.com", fun _ _ => true⟩

/-- Oracles: due instant -1 (one hour overdue at `now = 0`), email
resolves, sends succeed. -/
def sampleEnvOver : Env :=
  ⟨fun _ => some (-1), fun _ => some "user@example.com", fun _ _ => true⟩

/-- Oracles: every due-date string fails to parse. -/
def sampleEnvBad : Env :=
  ⟨fun _ => none, fun _ => some "user@example.com", fun _ _ => true⟩

/-- The empty initial loop state. -/
def sampleAcc : LoopState := ⟨[], 0, [], []⟩

/-- Configured SMTP credentials. -/
def sampleCfg : MailConfig := ⟨some "bot@example.com", some "hunter2"⟩

/-- A well-formed task dict for the mail adapter. -/
def sampleDict : List (String × String) :=
  [("title", "Write report"), ("priority", "high")]

/-! ### Basic lemmas about the embedding -/

lemma insertKey_self (k : String) (s : List String) : k ∈ insertKey k s := by
  unfold insertKey; split <;> simp_all

lemma insertKey_mem (k j : String) (s : List String) (h : j ∈ s) : j ∈ insertKey k s := by
  unfold insertKey; split <;> simp_all

lemma sendAttempt_of_true (env : Env) (acc : LoopState) (task_id : String) (w : Window)
    (r : String) (et : Task) (hs : env.sendOk r et = true) :
    sendAttempt env acc task_id w r et =
      ⟨insertKey (keyFor task_id w) acc.sent, acc.cnt + 1, acc.lookups,
        acc.attempts ++ [⟨task_id, w, r, et, true⟩]⟩ := by
  simp [sendAttempt, hs]

lemma sendAttempt_of_false (env : Env) (acc : LoopState) (task_id : String) (w : Window)
    (r : String) (et : Task) (hs : env.sendOk r et = false) :
    sendAttempt env acc task_id w r et =
      { acc with attempts := acc.attempts ++ [⟨task_id, w, r, et, false⟩] } := by
  simp [sendAttempt, hs]

/-- Characterization of `windowOf` for the pre-due window. -/
lemma windowOf_preDue (h : ℚ) :
    windowOf h = some Window.preDue ↔ 0.9 ≤ h ∧ h ≤ 1.1 := by
  unfold windowOf
  split_ifs with h1 h2 h3
  · simp [h1.1, h1.2]
  · constructor
    · intro hc; simp at hc
    · rintro ⟨ha, hb⟩; exact absurd (ha.trans h2.2) (by norm_num)
  · constructor
    · intro hc; simp at hc
    · rintro ⟨ha, hb⟩; exact absurd (ha.trans h3.2) (by norm_num)
  · constructor
    · intro hc; simp at hc
    · rintro ⟨ha, hb⟩; exact absurd ⟨ha, hb⟩ h1

/-- Characterization of `windowOf` for the due-now window. -/
lemma windowOf_dueNow (h : ℚ) :
    windowOf h = some Window.dueNow ↔ (-0.08 : ℚ) ≤ h ∧ h ≤ 0.08 := by
  unfold windowOf
  split_ifs with h1 h2 h3
  · constructor
    · intro hc; simp at hc
    · rintro ⟨ha, hb⟩; exact absurd (h1.1.trans hb) (by norm_num)
  · simp [h2.1, h2.2]
  · constructor
    · intro hc; simp at hc
    · rintro ⟨ha, hb⟩; exact absurd (ha.trans h3.2) (by norm_num)
  · constructor
    · intro hc; simp at hc
    · rintro ⟨ha, hb⟩; exact absurd ⟨ha, hb⟩ h2

/-- Characterization of `windowOf` for the overdue window. -/
lemma windowOf_overdue (h : ℚ) :
    windowOf h = some Window.overdue ↔ (-1.1 : ℚ) ≤ h ∧ h ≤ (-0.9 : ℚ) := by
  unfold windowOf
  split_ifs with h1 h2 h3
  · constructor
    · intro hc; simp at hc
    · rintro ⟨ha, hb⟩; exact absurd (h1.1.trans hb) (by norm_num)
  · constructor
    · intro hc; simp at hc
    · rintro ⟨ha, hb⟩; exact absurd (h2.1.trans hb) (by norm_num)
  · simp [h3.1, h3.2]
  · constructor
    · intro hc; simp at hc
    · rintro ⟨ha, hb⟩; exact absurd ⟨ha, hb⟩ h3

/-- Shape of one per-task body after a successful parse: either only the
email-lookup trace grows (no resolvable email, or no window/dedup match),
or exactly one `sendAttempt` runs, for a window `hours_until_due` lies in,
with the dedup key checked absent first. -/
lemma processParsed_cases (env : Env) (acc : LoopState) (task : Task) (h : ℚ) :
    processParsed env acc task h =
        { acc with lookups := acc.lookups ++ [task.auth_users_id] } ∨
    ∃ w e, env.getUserEmail task.auth_users_id = some e ∧ e ≠ "" ∧
      windowOf h = some w ∧
      keyFor task.id w ∉ acc.sent ∧
      processParsed env acc task h =
        sendAttempt env { acc with lookups := acc.lookups ++ [task.auth_users_id] }
          task.id w e (emailTaskFor task w) := by
  unfold processParsed
  cases hmail : env.getUserEmail task.auth_users_id with
  | none => left; simp [blank, hmail]
  | some e =>
    by_cases he : e = ""
    · left; simp [blank, hmail, he]
    · simp only [hmail, Option.getD_some]
      rw [if_neg (by simp [blank, he])]
      split_ifs with h1 h2 h3
      · right
        exact ⟨Window.preDue, e, rfl, he, (windowOf_preDue h).mpr h1.1, h1.2, by
          simp [emailTaskFor]⟩
      · right
        refine ⟨Window.dueNow, e, rfl, he, (windowOf_dueNow h).mpr h2.1, h2.2, by
          simp [emailTaskFor]⟩
      · right
        refine ⟨Window.overdue, e, rfl, he, (windowOf_overdue h).mpr h3.1, h3.2, by
          simp [emailTaskFor]⟩
      · left; rfl

/-- Shape of one loop iteration: the state is unchanged (skip, or caught
exception) or the task's due date parsed and `processParsed` ran. -/
lemma processTask_eq (env : Env) (now : ℚ) (acc : LoopState) (task : Task) :
    processTask env now acc task = acc ∨
    ∃ d, blank task.due_date = false ∧ task.status ≠ "completed" ∧
      env.parseDue (task.due_date.getD "") = some d ∧
      processTask env now acc task = processParsed env acc task (d - now) := by
  unfold processTask
  split_ifs with hskip
  · left; rfl
  · push_neg at hskip
    cases hparse : env.parseDue (task.due_date.getD "") with
    | none => left; simp [processTaskBody, hparse]
    | some d =>
      right
      refine ⟨d, ?_, hskip.2, rfl, by simp [processTaskBody, hparse]⟩
      cases hbl : blank task.due_date
      · rfl
      · exact absurd hbl hskip.1

lemma pairAttempts_append_single (l : List SendRec) (a : SendRec) (tid : String) (w : Window) :
    pairAttempts (l ++ [a]) tid w =
      pairAttempts l tid w + (if a.taskId = tid ∧ a.window = w then 1 else 0) := by
  simp [pairAttempts, List.countP_append, List.countP_cons]

lemma pairSuccesses_append_single (l : List SendRec) (a : SendRec) (tid : String) (w : Window) :
    pairSuccesses (l ++ [a]) tid w =
      pairSuccesses l tid w +
        (if a.taskId = tid ∧ a.window = w ∧ a.success = true then 1 else 0) := by
  simp [pairSuccesses, List.countP_append, List.countP_cons]

/-- A loop iteration makes no mail-adapter call for a pair whose dedup key
is already present, and never removes the key. -/
lemma processTask_pair_of_mem (env : Env) (now : ℚ) (acc : LoopState) (task : Task)
    (tid : String) (w : Window) (hmem : keyFor tid w ∈ acc.sent) :
    pairAttempts (processTask env now acc task).attempts tid w =
      pairAttempts acc.attempts tid w ∧
    keyFor tid w ∈ (processTask env now acc task).sent := by
  rcases processTask_eq env now acc task with heq | ⟨d, _, _, _, heq⟩
  · rw [heq]; exact ⟨rfl, hmem⟩
  · rw [heq]
    rcases processParsed_cases env acc task (d - now) with hpp | ⟨w2, e, _, _, _, hkey, hpp⟩
    · rw [hpp]; exact ⟨rfl, hmem⟩
    · rw [hpp]
      have hnp : ¬(task.id = tid ∧ w2 = w) := by
        rintro ⟨h1, h2⟩
        exact hkey (h1 ▸ h2 ▸ hmem)
      by_cases hs : env.sendOk e (emailTaskFor task w2) = true
      · rw [sendAttempt_of_true _ _ _ _ _ _ hs]
        refine ⟨?_, insertKey_mem _ _ _ hmem⟩
        simp only [pairAttempts_append_single]
        simp [hnp]
      · rw [sendAttempt_of_false _ _ _ _ _ _ (by simpa using hs)]
        refine ⟨?_, hmem⟩
        simp only [pairAttempts_append_single]
        simp [hnp]

/-- A loop iteration keeps the per-pair successful-send count at most one,
and a pair that has been sent successfully has its key in the dedup set. -/
lemma processTask_pair_successes (env : Env) (now : ℚ) (acc : LoopState) (task : Task)
    (tid : String) (w : Window)
    (hle : pairSuccesses acc.attempts tid w ≤ 1)
    (hinv : 1 ≤ pairSuccesses acc.attempts tid w → keyFor tid w ∈ acc.sent) :
    pairSuccesses (processTask env now acc task).attempts tid w ≤ 1 ∧
    (1 ≤ pairSuccesses (processTask env now acc task).attempts tid w →
      keyFor tid w ∈ (processTask env now acc task).sent) := by
  rcases processTask_eq env now acc task with heq | ⟨d, _, _, _, heq⟩
  · rw [heq]; exact ⟨hle, hinv⟩
  · rw [heq]
    rcases processParsed_cases env acc task (d - now) with hpp | ⟨w2, e, _, _, _, hkey, hpp⟩
    · rw [hpp]; exact ⟨hle, hinv⟩
    · rw [hpp]
      by_cases hs : env.sendOk e (emailTaskFor task w2) = true
      · rw [sendAttempt_of_true _ _ _ _ _ _ hs]
        by_cases hpair : task.id = tid ∧ w2 = w
        · obtain ⟨hp1, hp2⟩ := hpair
          have hzero : pairSuccesses acc.attempts tid w = 0 := by
            by_contra hne
            exact hkey (hp1 ▸ hp2 ▸ hinv (Nat.one_le_iff_ne_zero.mpr hne))
          constructor
          · simp only [pairSuccesses_append_single]
            simp [hzero, hp1, hp2]
          · intro _
            exact hp1 ▸ hp2 ▸ insertKey_self _ _
        · constructor
          · simp only [pairSuccesses_append_single]
            simpa [hpair] using hle
          · simp only [pairSuccesses_append_single]
            rw [if_neg (by simp [hpair]), Nat.add_zero]
            intro hone
            exact insertKey_mem _ _ _ (hinv hone)
      · rw [sendAttempt_of_false _ _ _ _ _ _ (by simpa using hs)]
        constructor
        · simp only [pairSuccesses_append_single]
          simpa using hle
        · simp only [pairSuccesses_append_single]
          rw [if_neg (by simp), Nat.add_zero]
          exact hinv

/-- Over the whole loop: a pair whose key is in the dedup set gets no
mail-adapter call, and the key survives the loop. -/
lemma runLoop_pair_of_mem (env : Env) (now : ℚ) (tid : String) (w : Window) :
    ∀ (tasks : List Task) (acc : LoopState), keyFor tid w ∈ acc.sent →
      pairAttempts (runLoop env now acc tasks).attempts tid w =
        pairAttempts acc.attempts tid w ∧
      keyFor tid w ∈ (runLoop env now acc tasks).sent := by
  intro tasks
  induction tasks with
  | nil => exact fun acc hmem => ⟨rfl, hmem⟩
  | cons t ts ih =>
    intro acc hmem
    have hstep := processTask_pair_of_mem env now acc t tid w hmem
    have hrest := ih (processTask env now acc t) hstep.2
    refine ⟨?_, ?_⟩
    · show pairAttempts (runLoop env now (processTask env now acc t) ts).attempts tid w = _
      rw [hrest.1, hstep.1]
    · exact hrest.2

/-- Over the whole loop: at most one successful send per pair, and a sent
pair has its key in the dedup set at the end of the loop. -/
lemma runLoop_pair_successes (env : Env) (now : ℚ) (tid : String) (w : Window) :
    ∀ (tasks : List Task) (acc : LoopState),
      pairSuccesses acc.attempts tid w ≤ 1 →
      (1 ≤ pairSuccesses acc.attempts tid w → keyFor tid w ∈ acc.sent) →
      pairSuccesses (runLoop env now acc tasks).attempts tid w ≤ 1 ∧
      (1 ≤ pairSuccesses (runLoop env now acc tasks).attempts tid w →
        keyFor tid w ∈ (runLoop env now acc tasks).sent) := by
  intro tasks
  induction tasks with
  | nil => exact fun acc hle hinv => ⟨hle, hinv⟩
  | cons t ts ih =>
    intro acc hle hinv
    have hstep := processTask_pair_successes env now acc t tid w hle hinv
    exact ih (processTask env now acc t) hstep.1 hstep.2

lemma sendAttempt_attempts (env : Env) (acc : LoopState) (task_id : String) (w : Window)
    (r : String) (et : Task) :
    (sendAttempt env acc task_id w r et).attempts =
      acc.attempts ++ [⟨task_id, w, r, et, env.sendOk r et⟩] := by
  by_cases hs : env.sendOk r et = true
  · rw [sendAttempt_of_true _ _ _ _ _ _ hs, hs]
  · have hs2 : env.sendOk r et = false := by simpa using hs
    rw [sendAttempt_of_false _ _ _ _ _ _ hs2, hs2]

lemma sendAttempt_lookups (env : Env) (acc : LoopState) (task_id : String) (w : Window)
    (r : String) (et : Task) :
    (sendAttempt env acc task_id w r et).lookups = acc.lookups := by
  by_cases hs : env.sendOk r et = true
  · rw [sendAttempt_of_true _ _ _ _ _ _ hs]
  · rw [sendAttempt_of_false _ _ _ _ _ _ (by simpa using hs)]

/-- When the skip test fails and the due date parses, the loop body is
exactly `processParsed` at `due_date - now`. -/
lemma processTask_parsed (env : Env) (now : ℚ) (acc : LoopState) (task : Task) (d : ℚ)
    (hblank : blank task.due_date = false) (hstatus : task.status ≠ "completed")
    (hparse : env.parseDue (task.due_date.getD "") = some d) :
    processTask env now acc task = processParsed env acc task (d - now) := by
  unfold processTask
  rw [if_neg (by simp [hblank, hstatus])]
  simp [processTaskBody, hparse]

/-- When the email resolves, the hours-until-due value is in window `w` and
the dedup key is absent, the loop body runs exactly one `sendAttempt` for
`w` with the window's email task. -/
lemma processParsed_send (env : Env) (acc : LoopState) (task : Task) (h : ℚ) (e : String)
    (w : Window) (hmail : env.getUserEmail task.auth_users_id = some e) (he : e ≠ "")
    (hwin : windowOf h = some w) (hkey : keyFor task.id w ∉ acc.sent) :
    processParsed env acc task h =
      sendAttempt env { acc with lookups := acc.lookups ++ [task.auth_users_id] }
        task.id w e (emailTaskFor task w) := by
  unfold processParsed
  simp only [hmail, Option.getD_some]
  rw [if_neg (by simp [blank, he])]
  cases w with
  | preDue =>
    obtain ⟨h1, h2⟩ := (windowOf_preDue h).mp hwin
    rw [if_pos ⟨⟨h1, h2⟩, hkey⟩]
    simp [emailTaskFor]
  | dueNow =>
    obtain ⟨h1, h2⟩ := (windowOf_dueNow h).mp hwin
    rw [if_neg (by rintro ⟨⟨ha, hb⟩, -⟩; linarith), if_pos ⟨⟨h1, h2⟩, hkey⟩]
    simp [emailTaskFor]
  | overdue =>
    obtain ⟨h1, h2⟩ := (windowOf_overdue h).mp hwin
    rw [if_neg (by rintro ⟨⟨ha, hb⟩, -⟩; linarith),
      if_neg (by rintro ⟨⟨ha, hb⟩, -⟩; linarith), if_pos ⟨⟨h1, h2⟩, hkey⟩]
    simp [emailTaskFor]

/-- A loop over tasks that all fail the initial skip test does nothing. -/
lemma runLoop_skip (env : Env) (now : ℚ) :
    ∀ (tasks : List Task) (acc : LoopState),
      (∀ t ∈ tasks, blank t.due_date = true ∨ t.status = "completed") →
      runLoop env now acc tasks = acc := by
  intro tasks
  induction tasks with
  | nil => intro acc _; rfl
  | cons t ts ih =>
    intro acc hall
    have hskip : processTask env now acc t = acc := by
      unfold processTask
      rw [if_pos (hall t (List.mem_cons_self t ts))]
    show runLoop env now (processTask env now acc t) ts = acc
    rw [hskip]
    exact ih acc fun u hu => hall u (List.mem_cons_of_mem t hu)

/-- A pass whose fetch returned a list makes no mail-adapter call for a
pair whose key is already in the dedup set. -/
lemma pass_pair_of_mem (env : Env) (now : ℚ) (tasks : List Task) (sent0 : List String)
    (tid : String) (w : Window) (hmem : keyFor tid w ∈ sent0) :
    pairAttempts (check_task_reminders env now (.ok tasks) sent0).attempts tid w = 0 := by
  cases tasks with
  | nil => rfl
  | cons t ts =>
    have h := runLoop_pair_of_mem env now tid w (t :: ts) ⟨sent0, 0, [], []⟩ hmem
    show pairAttempts (runLoop env now ⟨sent0, 0, [], []⟩ (t :: ts)).attempts tid w = 0
    rw [h.1]; rfl

/-- A pass whose fetch returned a list makes at most one successful
mail-adapter call per pair, and the key of a sent pair is in the dedup set
at the end of the loop. -/
lemma pass_pair_successes (env : Env) (now : ℚ) (tasks : List Task) (sent0 : List String)
    (tid : String) (w : Window) :
    pairSuccesses (check_task_reminders env now (.ok tasks) sent0).attempts tid w ≤ 1 ∧
    (1 ≤ pairSuccesses (check_task_reminders env now (.ok tasks) sent0).attempts tid w →
      keyFor tid w ∈ (runLoop env now ⟨sent0, 0, [], []⟩ tasks).sent) := by
  cases tasks with
  | nil => exact ⟨by norm_num [check_task_reminders, pairSuccesses], by intro h; simp [check_task_reminders, pairSuccesses] at h⟩
  | cons t ts =>
    have h := runLoop_pair_successes env now tid w (t :: ts) ⟨sent0, 0, [], []⟩
      (by norm_num [pairSuccesses]) (by intro hc; simp [pairSuccesses] at hc)
    exact ⟨h.1, h.2⟩

lemma dictIndex_ok (task : List (String × String)) (k v : String)
    (h : dictIndex task k = .ok v) : dictGet task k = some v := by
  unfold dictIndex at h
  split at h
  · simp_all
  · cases h

/-- `send_body` only returns `.ok` when everything worked: the result is
`True`, the SMTP conversation succeeded, and the dict held the keys the
message build reads. -/
lemma send_body_ok (parseIso : String → Option ℚ) (smtp_ok : Bool)
    (task : List (String × String)) (b : Bool)
    (h : send_body parseIso smtp_ok task = .ok b) :
    b = true ∧ smtp_ok = true ∧ dictGet task "title" ≠ none ∧
      dictGet task "priority" ≠ none := by
  unfold send_body at h
  split at h
  · exact Except.noConfusion h
  · rename_i heqT
    split at h
    · exact Except.noConfusion h
    · split at h
      · exact Except.noConfusion h
      · rename_i heqP
        split at h
        · rename_i hsm
          cases h
          refine ⟨rfl, hsm, ?_, ?_⟩
          · rw [dictIndex_ok task "title" _ heqT]; simp
          · rw [dictIndex_ok task "priority" _ heqP]; simp
        · exact Except.noConfusion h

/-! ### Claim theorems -/

/-- C2: every hours-until-due value is classified into at most one of the
three windows (the three inclusive ranges [0.9, 1.1], [-0.08, 0.08] and
[-1.1, -0.9] are pairwise incompatible and `windowOf` matches each exactly
on its range); a task due in exactly 1.00 hours falls in the pre-due
window, one due in 1.15 hours falls in no window, and an hours value in no
window leads to no mail-adapter call and no dedup-set change for that
task. -/
theorem window_classification :
    (∀ h : ℚ,
      (windowOf h = some Window.preDue ↔ 0.9 ≤ h ∧ h ≤ 1.1) ∧
      (windowOf h = some Window.dueNow ↔ (-0.08 : ℚ) ≤ h ∧ h ≤ 0.08) ∧
      (windowOf h = some Window.overdue ↔ (-1.1 : ℚ) ≤ h ∧ h ≤ (-0.9 : ℚ)) ∧
      ¬((0.9 ≤ h ∧ h ≤ 1.1) ∧ ((-0.08 : ℚ) ≤ h ∧ h ≤ 0.08)) ∧
      ¬((0.9 ≤ h ∧ h ≤ 1.1) ∧ ((-1.1 : ℚ) ≤ h ∧ h ≤ (-0.9 : ℚ))) ∧
      ¬(((-0.08 : ℚ) ≤ h ∧ h ≤ 0.08) ∧ ((-1.1 : ℚ) ≤ h ∧ h ≤ (-0.9 : ℚ))) ∧
      (windowOf h = none →
        ∀ env acc task, (processParsed env acc task h).attempts = acc.attempts ∧
          (processParsed env acc task h).sent = acc.sent)) ∧
    windowOf 1 = some Window.preDue ∧ windowOf (1.15 : ℚ) = none := by
  refine ⟨fun h => ⟨windowOf_preDue h, windowOf_dueNow h, windowOf_overdue h,
    ?_, ?_, ?_, ?_⟩, by norm_num [windowOf], by norm_num [windowOf]⟩
  · rintro ⟨⟨h1, h2⟩, ⟨h3, h4⟩⟩; linarith
  · rintro ⟨⟨h1, h2⟩, ⟨h3, h4⟩⟩; linarith
  · rintro ⟨⟨h1, h2⟩, ⟨h3, h4⟩⟩; linarith
  · intro hnone env acc task
    rcases processParsed_cases env acc task h with hpp | ⟨w2, e, _, _, hwin, _, hpp⟩
    · rw [hpp]; exact ⟨rfl, rfl⟩
    · rw [hnone] at hwin; exact Option.noConfusion hwin

theorem window_classification_witness :
    (processParsed sampleEnvFar sampleAcc sampleTask 10).attempts = sampleAcc.attempts ∧
    (processParsed sampleEnvFar sampleAcc sampleTask 10).sent = sampleAcc.sent :=
  (window_classification.1 10).2.2.2.2.2.2 (by norm_num [windowOf])
    sampleEnvFar sampleAcc sampleTask

/-- C3: a task whose `due_date` is missing (or empty, Python falsiness) or
whose status is `completed` is skipped before any window logic: its loop
iteration leaves the state untouched, and a pass over a list of only such
tasks makes no mail-adapter call and counts zero sends. -/
theorem completed_or_no_due_date_no_email :
    (∀ env now acc (task : Task),
      blank task.due_date = true ∨ task.status = "completed" →
      processTask env now acc task = acc) ∧
    (∀ env now (tasks : List Task) (sent0 : List String),
      (∀ task ∈ tasks, blank task.due_date = true ∨ task.status = "completed") →
      (check_task_reminders env now (.ok tasks) sent0).attempts = [] ∧
      (check_task_reminders env now (.ok tasks) sent0).reminderSentCount = 0) := by
  constructor
  · intro env now acc task hskip
    unfold processTask
    rw [if_pos hskip]
  · intro env now tasks sent0 hall
    cases tasks with
    | nil => exact ⟨rfl, rfl⟩
    | cons t ts =>
      have hrl := runLoop_skip env now (t :: ts) ⟨sent0, 0, [], []⟩ hall
      constructor
      · show (runLoop env now ⟨sent0, 0, [], []⟩ (t :: ts)).attempts = []
        rw [hrl]
      · show (runLoop env now ⟨sent0, 0, [], []⟩ (t :: ts)).cnt = 0
        rw [hrl]

theorem completed_or_no_due_date_no_email_witness :
    processTask sampleEnvPre 0 sampleAcc sampleDone = sampleAcc ∧
    (check_task_reminders sampleEnvPre 0 (.ok [sampleDone]) []).attempts = [] :=
  ⟨completed_or_no_due_date_no_email.1 sampleEnvPre 0 sampleAcc sampleDone (Or.inr rfl),
    (completed_or_no_due_date_no_email.2 sampleEnvPre 0 [sampleDone] []
      (by intro t ht; simp at ht; subst ht; exact Or.inr rfl)).1⟩

/-- C6: the post-loop cleanup clears the whole dedup set exactly when it
holds more than 1000 keys and otherwise leaves it unchanged; after a
completed pass the set holds at most 1000 keys, it equals the cleanup of
the loop's final set, and after a clear every key is absent again (so any
pair is eligible for a new send). -/
theorem cleanup_clears_past_1000 :
    ∀ (s : List String),
      (1000 < s.length → cleanup_old_reminders s = []) ∧
      (s.length ≤ 1000 → cleanup_old_reminders s = s) ∧
      (cleanup_old_reminders s).length ≤ 1000 ∧
      (1000 < s.length → ∀ tid w, keyFor tid w ∉ cleanup_old_reminders s) ∧
      (∀ env now (tasks : List Task) (sent0 : List String), tasks ≠ [] →
        (check_task_reminders env now (.ok tasks) sent0).sentReminders =
          cleanup_old_reminders (runLoop env now ⟨sent0, 0, [], []⟩ tasks).sent ∧
        (check_task_reminders env now (.ok tasks) sent0).sentReminders.length ≤ 1000) := by
  intro s
  refine ⟨?_, ?_, ?_, ?_, ?_⟩
  · intro hgt; unfold cleanup_old_reminders; rw [if_pos hgt]
  · intro hle; unfold cleanup_old_reminders; rw [if_neg (by omega)]
  · unfold cleanup_old_reminders; split
    · simp
    · omega
  · intro hgt tid w
    unfold cleanup_old_reminders; rw [if_pos hgt]; simp
  · intro env now tasks sent0 hne
    cases tasks with
    | nil => exact absurd rfl hne
    | cons t ts =>
      refine ⟨rfl, ?_⟩
      show (cleanup_old_reminders (runLoop env now ⟨sent0, 0, [], []⟩ (t :: ts)).sent).length ≤ 1000
      unfold cleanup_old_reminders; split
      · simp
      · omega

theorem cleanup_clears_past_1000_witness :
    cleanup_old_reminders ["t1_1h"] = ["t1_1h"] ∧
    cleanup_old_reminders (List.replicate 1001 "k") = [] :=
  ⟨(cleanup_clears_past_1000 ["t1_1h"]).2.1 (by norm_num),
    (cleanup_clears_past_1000 (List.replicate 1001 "k")).1
      (by rw [List.length_replicate]; omega)⟩

/-- C10: when the store fetch raises, or returns an empty list, the pass
returns before the loop and before the cleanup: the dedup set is returned
exactly as it was (whatever its size, even above 1000 keys), no
mail-adapter call and no email lookup happens, and the sent counter is
zero. -/
theorem fetch_failure_or_empty_unchanged :
    ∀ env now (sent0 : List String) (msg : String),
      check_task_reminders env now (.error msg) sent0 = ⟨sent0, 0, [], [], []⟩ ∧
      check_task_reminders env now (.ok []) sent0 = ⟨sent0, 0, [], [], []⟩ := by
  intro env now sent0 msg
  exact ⟨rfl, rfl⟩

/-- C5: a task whose due-date string fails to parse raises inside the
per-task `try` and is caught there: its iteration leaves the state
unchanged, and a batch containing it behaves exactly like the batch
without it — every other task is still processed and nothing escapes the
pass. -/
theorem malformed_due_date_skipped :
    ∀ env now (sent0 : List String) (ts1 ts2 : List Task) (task : Task) (s : String),
      task.due_date = some s →
      env.parseDue s = none →
      (∃ msg, processTaskBody env now (runLoop env now ⟨sent0, 0, [], []⟩ ts1) task =
        .error msg) ∧
      (∀ acc, processTask env now acc task = acc) ∧
      runLoop env now ⟨sent0, 0, [], []⟩ (ts1 ++ task :: ts2) =
        runLoop env now ⟨sent0, 0, [], []⟩ (ts1 ++ ts2) := by
  intro env now sent0 ts1 ts2 task s hdue hparse
  have hget : task.due_date.getD "" = s := by rw [hdue]; rfl
  have hbody : ∀ acc, processTaskBody env now acc task =
      .error ("ValueError: Invalid isoformat string: " ++ s) := by
    intro acc; simp [processTaskBody, hget, hparse]
  have hpt : ∀ acc, processTask env now acc task = acc := by
    intro acc; unfold processTask
    split_ifs with h1
    · rfl
    · rw [hbody]
  refine ⟨⟨_, hbody _⟩, hpt, ?_⟩
  unfold runLoop
  rw [List.foldl_append, List.foldl_append, List.foldl_cons, hpt]

theorem malformed_due_date_skipped_witness :
    processTask sampleEnvBad 0 sampleAcc sampleTask = sampleAcc :=
  (malformed_due_date_skipped sampleEnvBad 0 [] [] [] sampleTask
    "2025-06-01T10:00:00" rfl rfl).2.1 sampleAcc

/-- C8 (amended): the owner-email resolution happens before window
classification, not after it: whenever a task passes the skip test and its
due date parses, exactly one owner-email resolution call is recorded for
it, regardless of whether any window matches or the pair's dedup key is
already present; only the send itself is gated on the window and dedup
checks. -/
theorem email_resolution_precedes_classification :
    ∀ env now acc (task : Task) (d : ℚ),
      blank task.due_date = false →
      task.status ≠ "completed" →
      env.parseDue (task.due_date.getD "") = some d →
      (processTask env now acc task).lookups = acc.lookups ++ [task.auth_users_id] := by
  intro env now acc task d hb hs hp
  rw [processTask_parsed env now acc task d hb hs hp]
  rcases processParsed_cases env acc task (d - now) with hpp | ⟨w2, e, _, _, _, _, hpp⟩
  · rw [hpp]
  · rw [hpp, sendAttempt_lookups]

theorem email_resolution_precedes_classification_witness :
    (processTask sampleEnvFar 0 sampleAcc sampleTask).lookups =
      sampleAcc.lookups ++ [sampleTask.auth_users_id] :=
  email_resolution_precedes_classification sampleEnvFar 0 sampleAcc sampleTask 10
    (by decide) (by decide) rfl

/-- C8 counterexample to the claim as stated: a task ten hours from due is
in no reminder window and no email is sent for it, yet the pass still
makes an owner-email resolution call for its owner — the code resolves the
email before classifying the window, so "no owner-email resolution call is
made for a task that matches no window" is false on the code. -/
theorem email_resolution_counterexample :
    windowOf ((10 : ℚ) - 0) = none ∧
    (check_task_reminders sampleEnvFar 0 (.ok [sampleTask]) []).emailLookups = ["u1"] ∧
    (check_task_reminders sampleEnvFar 0 (.ok [sampleTask]) []).attempts = [] := by
  have hone : processTask sampleEnvFar 0 ⟨[], 0, [], []⟩ sampleTask =
      ⟨[], 0, ["u1"], []⟩ := by
    rw [processTask_parsed sampleEnvFar 0 _ sampleTask 10 (by decide) (by decide) rfl]
    unfold processParsed
    rw [if_neg (by simp [blank, sampleEnvFar])]
    rw [if_neg (by rintro ⟨⟨ha, hb⟩, -⟩; norm_num at hb),
      if_neg (by rintro ⟨⟨ha, hb⟩, -⟩; norm_num at hb),
      if_neg (by rintro ⟨⟨ha, hb⟩, -⟩; norm_num at hb)]
    rfl
  have hrun : runLoop sampleEnvFar 0 ⟨[], 0, [], []⟩ [sampleTask] =
      ⟨[], 0, ["u1"], []⟩ := hone
  refine ⟨by norm_num [windowOf], ?_, ?_⟩
  · show (runLoop sampleEnvFar 0 ⟨[], 0, [], []⟩ [sampleTask]).lookups = ["u1"]
    rw [hrun]
  · show (runLoop sampleEnvFar 0 ⟨[], 0, [], []⟩ [sampleTask]).attempts = []
    rw [hrun]

/-- C4: for a task that matches a window with its dedup key absent and its
owner's email resolved, the mail adapter is called once; on success the key
is inserted into the dedup set and the per-pass counter is incremented; on
failure neither happens — the state keeps the key absent so a later pass
retries the pair. -/
theorem send_success_inserts_key_failure_retries :
    ∀ env now acc (task : Task) (d : ℚ) (e : String) (w : Window),
      blank task.due_date = false →
      task.status ≠ "completed" →
      env.parseDue (task.due_date.getD "") = some d →
      env.getUserEmail task.auth_users_id = some e →
      e ≠ "" →
      windowOf (d - now) = some w →
      keyFor task.id w ∉ acc.sent →
      (env.sendOk e (emailTaskFor task w) = true →
        processTask env now acc task =
          ⟨insertKey (keyFor task.id w) acc.sent, acc.cnt + 1,
            acc.lookups ++ [task.auth_users_id],
            acc.attempts ++ [⟨task.id, w, e, emailTaskFor task w, true⟩]⟩) ∧
      (env.sendOk e (emailTaskFor task w) = false →
        processTask env now acc task =
          ⟨acc.sent, acc.cnt, acc.lookups ++ [task.auth_users_id],
            acc.attempts ++ [⟨task.id, w, e, emailTaskFor task w, false⟩]⟩) := by
  intro env now acc task d e w hb hst hp hm he hw hk
  rw [processTask_parsed env now acc task d hb hst hp,
    processParsed_send env acc task (d - now) e w hm he hw hk]
  constructor
  · intro hs
    rw [sendAttempt_of_true _ _ _ _ _ _ hs]
  · intro hs
    rw [sendAttempt_of_false _ _ _ _ _ _ hs]

theorem send_success_inserts_key_witness :
    processTask sampleEnvPre 0 sampleAcc sampleTask =
      ⟨insertKey (keyFor sampleTask.id Window.preDue) sampleAcc.sent, sampleAcc.cnt + 1,
        sampleAcc.lookups ++ [sampleTask.auth_users_id],
        sampleAcc.attempts ++ [⟨sampleTask.id, Window.preDue, "user@example.com",
          emailTaskFor sampleTask Window.preDue, true⟩]⟩ :=
  (send_success_inserts_key_failure_retries sampleEnvPre 0 sampleAcc sampleTask 1
    "user@example.com" Window.preDue (by decide) (by decide) rfl rfl (by decide)
    (by norm_num [windowOf]) (by simp [sampleAcc])).1 rfl

/-- C7: in the overdue window the email is built from a copy of the task
whose title carries the `OVERDUE: ` prefix; every other field of the copy
equals the original's, the original record is untouched (the embedding is
functional and the dedup key is still built from the original id), and the
pass writes nothing to the external store. -/
theorem overdue_email_is_presentation_copy :
    ∀ env now acc (task : Task) (d : ℚ) (e : String),
      blank task.due_date = false →
      task.status ≠ "completed" →
      env.parseDue (task.due_date.getD "") = some d →
      env.getUserEmail task.auth_users_id = some e →
      e ≠ "" →
      windowOf (d - now) = some Window.overdue →
      keyFor task.id Window.overdue ∉ acc.sent →
      ((processTask env now acc task).attempts =
        acc.attempts ++ [⟨task.id, Window.overdue, e,
          { task with title := "OVERDUE: " ++ task.title },
          env.sendOk e { task with title := "OVERDUE: " ++ task.title }⟩]) ∧
      emailTaskFor task Window.overdue =
        { task with title := "OVERDUE: " ++ task.title } ∧
      (emailTaskFor task Window.overdue).id = task.id ∧
      (emailTaskFor task Window.overdue).description = task.description ∧
      (emailTaskFor task Window.overdue).status = task.status ∧
      (emailTaskFor task Window.overdue).priority = task.priority ∧
      (emailTaskFor task Window.overdue).due_date = task.due_date ∧
      (∀ fetched (sent0 : List String),
        (check_task_reminders env now fetched sent0).storeWrites = []) := by
  intro env now acc task d e hb hst hp hm he hw hk
  refine ⟨?_, rfl, rfl, rfl, rfl, rfl, rfl, ?_⟩
  · rw [processTask_parsed env now acc task d hb hst hp,
      processParsed_send env acc task (d - now) e Window.overdue hm he hw hk,
      sendAttempt_attempts]
    rfl
  · intro fetched sent0
    rcases fetched with msg | l
    · rfl
    · cases l <;> rfl

theorem overdue_email_witness :
    (processTask sampleEnvOver 0 sampleAcc sampleTask).attempts =
      sampleAcc.attempts ++ [⟨sampleTask.id, Window.overdue, "user@example.com",
        { sampleTask with title := "OVERDUE: " ++ sampleTask.title },
        sampleEnvOver.sendOk "user@example.com"
          { sampleTask with title := "OVERDUE: " ++ sampleTask.title }⟩] :=
  (overdue_email_is_presentation_copy sampleEnvOver 0 sampleAcc sampleTask (-1)
    "user@example.com" (by decide) (by decide) rfl rfl (by decide)
    (by norm_num [windowOf]) (by simp [sampleAcc])).1

/-- C1: a pass makes no mail-adapter call at all for a `(task, window)`
pair whose dedup key is already in the set — in particular a pass repeated
immediately with the same `now` sends no second email for any pair the
first pass recorded, as long as the key is still in the returned set —
and within any single pass at most one successful send happens per pair;
moreover a pair sent during a pass has its key in the returned set unless
the loop left more than 1000 keys and the size cleanup cleared them all. -/
theorem at_most_one_send_per_pair :
    ∀ env now (tasks : List Task) (sent0 : List String) (tid : String) (w : Window),
      (keyFor tid w ∈ sent0 →
        pairAttempts (check_task_reminders env now (.ok tasks) sent0).attempts tid w
          = 0) ∧
      pairSuccesses (check_task_reminders env now (.ok tasks) sent0).attempts tid w ≤ 1 ∧
      (1 ≤ pairSuccesses (check_task_reminders env now (.ok tasks) sent0).attempts tid w →
        1000 < (runLoop env now ⟨sent0, 0, [], []⟩ tasks).sent.length ∨
        keyFor tid w ∈ (check_task_reminders env now (.ok tasks) sent0).sentReminders) ∧
      (keyFor tid w ∈ (check_task_reminders env now (.ok tasks) sent0).sentReminders →
        pairAttempts (check_task_reminders env now (.ok tasks)
          ((check_task_reminders env now (.ok tasks) sent0).sentReminders)).attempts
          tid w = 0) := by
  intro env now tasks sent0 tid w
  refine ⟨pass_pair_of_mem env now tasks sent0 tid w,
    (pass_pair_successes env now tasks sent0 tid w).1, ?_,
    fun hmem => pass_pair_of_mem env now tasks _ tid w hmem⟩
  intro hone
  have hkey := (pass_pair_successes env now tasks sent0 tid w).2 hone
  cases tasks with
  | nil => exact Or.inr hkey
  | cons t ts =>
    by_cases hlen : 1000 < (runLoop env now ⟨sent0, 0, [], []⟩ (t :: ts)).sent.length
    · exact Or.inl hlen
    · right
      show keyFor tid w ∈
        cleanup_old_reminders (runLoop env now ⟨sent0, 0, [], []⟩ (t :: ts)).sent
      unfold cleanup_old_reminders
      rw [if_neg hlen]
      exact hkey

theorem at_most_one_send_per_pair_witness :
    pairAttempts (check_task_reminders sampleEnvPre 0 (.ok [sampleTask])
      [keyFor "t1" Window.preDue]).attempts "t1" Window.preDue = 0 :=
  (at_most_one_send_per_pair sampleEnvPre 0 [sampleTask] [keyFor "t1" Window.preDue]
    "t1" Window.preDue).1 (by simp)

/-- C9: the mail adapter never raises to its caller: for every input the
result is a boolean; it is `False` whenever the credentials are unset or
blank, whenever the SMTP conversation fails, and whenever building the
message raised (missing dict key, malformed due-date string); it is `True`
only when the credentials are configured, the dict held the keys the
message build reads and the SMTP send succeeded. -/
theorem send_task_reminder_never_raises :
    ∀ (cfg : MailConfig) (parseIso : String → Option ℚ) (smtp_ok : Bool)
      (recipient_email : String) (task : List (String × String)),
      (∃ b : Bool,
        send_task_reminder cfg parseIso smtp_ok recipient_email task = .ok b) ∧
      (blank cfg.sender_email = true ∨ blank cfg.sender_password = true →
        send_task_reminder cfg parseIso smtp_ok recipient_email task = .ok false) ∧
      (smtp_ok = false →
        send_task_reminder cfg parseIso smtp_ok recipient_email task = .ok false) ∧
      (send_task_reminder cfg parseIso smtp_ok recipient_email task = .ok true →
        smtp_ok = true ∧ blank cfg.sender_email = false ∧
        blank cfg.sender_password = false ∧
        dictGet task "title" ≠ none ∧ dictGet task "priority" ≠ none) := by
  intro cfg parseIso smtp_ok recipient_email task
  by_cases hcred : blank cfg.sender_email = true ∨ blank cfg.sender_password = true
  · have hres : send_task_reminder cfg parseIso smtp_ok recipient_email task
        = .ok false := by
      unfold send_task_reminder
      rw [if_pos hcred]
    refine ⟨⟨false, hres⟩, fun _ => hres, fun _ => hres, fun ht => ?_⟩
    rw [hres] at ht
    exact absurd (Except.ok.inj ht) (by simp)
  · have hif : send_task_reminder cfg parseIso smtp_ok recipient_email task =
        match send_body parseIso smtp_ok task with
        | .ok b => .ok b
        | .error _ => .ok false := by
      unfold send_task_reminder
      rw [if_neg hcred]
    push_neg at hcred
    have hce : blank cfg.sender_email = false := by
      cases h : blank cfg.sender_email
      · rfl
      · exact absurd h hcred.1
    have hcp : blank cfg.sender_password = false := by
      cases h : blank cfg.sender_password
      · rfl
      · exact absurd h hcred.2
    cases hbody : send_body parseIso smtp_ok task with
    | ok b =>
      have hshape := send_body_ok parseIso smtp_ok task b hbody
      have hres : send_task_reminder cfg parseIso smtp_ok recipient_email task
          = .ok b := by rw [hif, hbody]
      refine ⟨⟨b, hres⟩, fun hc => ?_, fun hs => ?_,
        fun _ => ⟨hshape.2.1, hce, hcp, hshape.2.2.1, hshape.2.2.2⟩⟩
      · rcases hc with hc | hc
        · rw [hce] at hc; exact absurd hc (by simp)
        · rw [hcp] at hc; exact absurd hc (by simp)
      · exfalso
        rw [hs] at hshape
        simp at hshape
    | error msg =>
      have hres : send_task_reminder cfg parseIso smtp_ok recipient_email task
          = .ok false := by rw [hif, hbody]
      refine ⟨⟨false, hres⟩, fun _ => hres, fun _ => hres, fun ht => ?_⟩
      rw [hres] at ht
      exact absurd (Except.ok.inj ht) (by simp)

theorem send_task_reminder_never_raises_witness :
    send_task_reminder sampleCfg (fun _ => some 0) false "user@example.com"
      sampleDict = .ok false :=
  (send_task_reminder_never_raises sampleCfg (fun _ => some 0) false
    "user@example.com" sampleDict).2.2.1 rfl

end TaskManager
